import Mathlib

/-!
Shallow embedding of the spreadsheet-backed content layer of the
Circulx/save-earth-ride repository, together with proofs of the frozen
claims about it.

Sources embedded:
- src/lib/blogSheetHelpers.ts (BlogPost mapping, diff-based upsert,
  delete-by-id, add-single-with-title-check)
- src/lib/driveSheetHelpers.ts (DriveData dynamic-header CRUD)
- src/unnamed/part_000 (RunningBanner rotation state machine)

Conventions of the embedding:
- Sheet cells are Lean Strings; a data row is a List String. A cell the
  sheet does not have (a short row) is read with List.get?, so that a
  missing cell behaves as JS undefined where the distinction matters, and
  with List.getD _ "" where the source immediately coalesces it with
  the empty string.
- JS numbers that occur here are integers; Number(s) is modelled by
  jsNum (empty string to 0, integer numerals, everything else NaN = none)
  and parseInt(s) by parseIntJs (leading whitespace, sign, longest digit
  prefix). Number-to-string conversion is jsStringOfInt. Decimal,
  hexadecimal-literal and float edge cases of JS never arise in the
  values produced by this code.
- new Date().toISOString() and Date.now() are passed in as explicit
  parameters (nowIso, nowDate, nowMs); the source creates several Date
  objects per operation that are all intended to denote the same instant.
-/

namespace SaveEarthRide

/-! ## JS integer printing and parsing -/

def digitChar (d : Nat) : Char := Char.ofNat (48 + d)

/-- Decimal digits of a positive number, least significant first.
Fuel-driven so that it is structurally recursive; fuel at least n is
always enough since the argument is divided by ten each step. -/
def natDigitsRevFuel : Nat → Nat → List Char
  | _, 0 => []
  | 0, _ + 1 => []
  | fuel + 1, n + 1 => digitChar ((n + 1) % 10) :: natDigitsRevFuel fuel ((n + 1) / 10)

def jsStringOfNat (n : Nat) : String :=
  if n = 0 then "0" else String.mk (natDigitsRevFuel n n).reverse

/-- JS number-to-string conversion for integer values. -/
def jsStringOfInt (i : Int) : String :=
  if i < 0 then "-" ++ jsStringOfNat i.natAbs else jsStringOfNat i.toNat

def digitVal? (c : Char) : Option Nat :=
  if 48 ≤ c.toNat ∧ c.toNat ≤ 57 then some (c.toNat - 48) else none

def parseDigits : List Char → Nat → Option Nat
  | [], acc => some acc
  | c :: cs, acc =>
    match digitVal? c with
    | some d => parseDigits cs (10 * acc + d)
    | none => none

def parseNatChars (l : List Char) : Option Nat :=
  if l = [] then none else parseDigits l 0

/-- Character-level JS Number() on a nonempty string: optional minus sign
followed by decimal digits; anything else is NaN (none). -/
def jsNumChars (cs : List Char) : Option Int :=
  if cs.head? = some '-' then (parseNatChars cs.tail).map (fun n => -(n : Int))
  else (parseNatChars cs).map (fun n => (n : Int))

/-- JS Number(s) restricted to the integer numerals this code produces;
Number of the empty string is 0, a non-numeral is NaN (none). -/
def jsNum (s : String) : Option Int :=
  if s = "" then some 0 else jsNumChars s.data

/-! ## JS string split, trim and join at character level -/

def isWs (c : Char) : Bool := c.isWhitespace

/-- Model of s.split(",") on the character list of s. -/
def splitComma : List Char → List (List Char)
  | [] => [[]]
  | c :: cs =>
    if c = ',' then [] :: splitComma cs
    else
      match splitComma cs with
      | [] => [[c]]
      | p :: ps => (c :: p) :: ps

/-- Model of String.prototype.trim (leading and trailing whitespace). -/
def trimChars (l : List Char) : List Char :=
  ((l.dropWhile isWs).reverse.dropWhile isWs).reverse

/-- Model of array.join(coma-space), the separator used by the source. -/
def joinCommaSpace : List (List Char) → List Char
  | [] => []
  | [t] => t
  | t :: ts => t ++ ',' :: ' ' :: joinCommaSpace ts

/-! ## Blog record mapper (src/lib/blogSheetHelpers.ts) -/

/-- The BlogPost interface. The status union type is a plain string here;
the source only casts, it never validates it. -/
structure BlogPost where
  id : Int
  title : String
  excerpt : String
  content : String
  blogURL : String
  authorName : String
  authorBio : String
  authorAvatar : String
  tags : List String
  image : String
  readTime : String
  featured : Bool
  status : String
  category : String
  date : String
  createdAt : String
  updatedAt : String
deriving DecidableEq

/-- Number(row[i]) where a missing cell is undefined and Number of
undefined is NaN (none). -/
def jsCellNum (row : List String) (i : Nat) : Option Int :=
  match row.get? i with
  | none => none
  | some s => jsNum s

/-- Number(row[0]) coalesced with index + 1: NaN and 0 are falsy. -/
def idOrIndex (c : Option Int) (index : Nat) : Int :=
  match c with
  | some n => if n = 0 then ((index : Int) + 1) else n
  | none => (index : Int) + 1

/-- JS (s or default) for a string s, where a missing cell arrives as
the empty string; the empty string is the only falsy string. -/
def orDefault (s d : String) : String := if s = "" then d else s

/-- row[8] ? row[8].split(comma).map(tag trim) : [] -/
def readTags (cell : String) : List String :=
  if cell = "" then [] else (splitComma cell.data).map (fun p => String.mk (trimChars p))

/-- Array.isArray(tags) ? tags.join(comma-space) : tags; in this model
tags is always an array. -/
def joinTags (ts : List String) : String :=
  String.mk (joinCommaSpace (ts.map String.data))

/-- One row of rows.map in readBlogFromSheet, lines 36-54 of
blogSheetHelpers.ts. nowIso and nowDate stand for the freshly created
Date values. -/
def readBlogRow (index : Nat) (nowIso nowDate : String) (row : List String) : BlogPost :=
  { id := idOrIndex (jsCellNum row 0) index
    title := row.getD 1 ""
    excerpt := row.getD 2 ""
    content := row.getD 3 ""
    blogURL := row.getD 4 ""
    authorName := row.getD 5 ""
    authorBio := row.getD 6 ""
    authorAvatar := row.getD 7 ""
    tags := readTags (row.getD 8 "")
    image := row.getD 9 ""
    readTime := row.getD 10 ""
    featured := decide (row.getD 11 "" = "true")
    status := orDefault (row.getD 12 "") "draft"
    category := row.getD 13 ""
    date := orDefault (row.getD 14 "") nowDate
    createdAt := orDefault (row.getD 15 "") nowIso
    updatedAt := orDefault (row.getD 16 "") nowIso }

def readBlogFromSheet (nowIso nowDate : String) (rows : List (List String)) : List BlogPost :=
  rows.enum.map (fun e => readBlogRow e.1 nowIso nowDate e.2)

/-- The 17-cell values array written for one blog in writeBlogToSheet
(lines 98-116 and 130-148 are identical). The source stores blog.id as a
JS number; the sheet holds its decimal rendering. -/
def serializeBlogRow (b : BlogPost) : List String :=
  [jsStringOfInt b.id, b.title, b.excerpt, b.content, b.blogURL, b.authorName,
   b.authorBio, b.authorAvatar, joinTags b.tags, b.image, b.readTime,
   if b.featured then "true" else "false", b.status, b.category, b.date,
   b.createdAt, b.updatedAt]

/-! ### Round-trip facts for the mapper -/

def canonicalTag (s : String) : Prop := trimChars s.data = s.data ∧ ',' ∉ s.data

/-- A record produced by readBlogRow has a nonzero id, nonempty status,
date and timestamps (given nonempty clock strings) and canonical tags. -/
def WellFormedBlog (b : BlogPost) : Prop :=
  b.id ≠ 0 ∧ b.status ≠ "" ∧ b.date ≠ "" ∧ b.createdAt ≠ "" ∧ b.updatedAt ≠ "" ∧
    ∀ s ∈ b.tags, canonicalTag s

/-! ## Blog upsert (writeBlogToSheet), lines 57-166 -/

/-- A JS value as it occurs in the generic field comparison of
hasBlogChanged: blog[field] is a string for every compared field except
featured, which is a boolean. -/
inductive JsVal
  | str : String → JsVal
  | boolv : Bool → JsVal
deriving DecidableEq

def jsTruthy : JsVal → Bool
  | .str s => decide (s ≠ "")
  | .boolv b => b

/-- JS (v or empty-string): keep the value when truthy, otherwise the
empty string. -/
def jsValOrEmpty (v : JsVal) : JsVal :=
  if jsTruthy v then v else .str ""

/-- Generic property access blog[field] for the field names that occur in
fieldsToCompare; an unknown name is undefined, which the comparison
coalesces to the empty string. -/
def blogField (b : BlogPost) : String → JsVal
  | "title" => .str b.title
  | "excerpt" => .str b.excerpt
  | "content" => .str b.content
  | "blogURL" => .str b.blogURL
  | "authorName" => .str b.authorName
  | "authorBio" => .str b.authorBio
  | "authorAvatar" => .str b.authorAvatar
  | "image" => .str b.image
  | "readTime" => .str b.readTime
  | "featured" => .boolv b.featured
  | "status" => .str b.status
  | "category" => .str b.category
  | "date" => .str b.date
  | _ => .str ""

/-- The fixed field list of hasBlogChanged, lines 170-173. It does not
contain the tags field. -/
def fieldsToCompare : List String :=
  ["title", "excerpt", "content", "blogURL", "authorName", "authorBio",
   "authorAvatar", "image", "readTime", "featured", "status", "category", "date"]

/-- One step of the some-callback in hasBlogChanged, including the dead
tags branch (tags is not in fieldsToCompare, so it never runs). -/
def fieldChanged (existing incoming : BlogPost) (field : String) : Bool :=
  if field = "tags" then decide (joinTags existing.tags ≠ joinTags incoming.tags)
  else decide (jsValOrEmpty (blogField existing field) ≠ jsValOrEmpty (blogField incoming field))

def hasBlogChanged (existing incoming : BlogPost) : Bool :=
  fieldsToCompare.any (fieldChanged existing incoming)

def blogKey (b : BlogPost) : String := jsStringOfInt b.id

/-- The existing blogs paired with their sheet row index (index + 2,
A2 is row 2), as held by existingBlogMap. -/
def existingEntries (nowIso nowDate : String) (rows : List (List String)) :
    List (BlogPost × Nat) :=
  (readBlogFromSheet nowIso nowDate rows).enum.map (fun e => (e.2, e.1 + 2))

/-- JS Map lookup: when two existing blogs share an id string the later
entry wins, as in the Map constructor. -/
def lookupExisting (entries : List (BlogPost × Nat)) (key : String) :
    Option (BlogPost × Nat) :=
  entries.reverse.find? (fun e => decide (blogKey e.1 = key))

/-- existingIds.has: Set membership of the id string. -/
def hasExisting (entries : List (BlogPost × Nat)) (key : String) : Bool :=
  entries.any (fun e => decide (blogKey e.1 = key))

/-- The new blog as pushed in lines 86-90: createdAt defaulted only when
empty, updatedAt always fresh. -/
def freshNewBlog (b : BlogPost) (nowIso : String) : BlogPost :=
  { b with createdAt := orDefault b.createdAt nowIso, updatedAt := nowIso }

/-- The changed blog as pushed in line 82: only updatedAt refreshed. -/
def freshUpdatedBlog (b : BlogPost) (nowIso : String) : BlogPost :=
  { b with updatedAt := nowIso }

/-- The forEach partition of lines 75-92, preserving input order:
returns (newBlogs, updatedBlogs-with-row-index). -/
def partitionBlogs (entries : List (BlogPost × Nat)) (nowIso : String) :
    List BlogPost → List BlogPost × List (BlogPost × Nat)
  | [] => ([], [])
  | blog :: rest =>
    let tail := partitionBlogs entries nowIso rest
    if hasExisting entries (blogKey blog) then
      match lookupExisting entries (blogKey blog) with
      | some (ex, ri) =>
        if hasBlogChanged ex blog then (tail.1, (freshUpdatedBlog blog nowIso, ri) :: tail.2)
        else tail
      | none => tail
    else
      (freshNewBlog blog nowIso :: tail.1, tail.2)

/-- The observable outcome of writeBlogToSheet: the row-range update
calls issued (row number and 17-cell values, in order), the rows of the
single append call (empty when no append is issued), and the returned
counters. -/
structure BlogWriteResult where
  updates : List (Nat × List String)
  appendedRows : List (List String)
  updated : Nat
  added : Nat
  success : Bool
deriving DecidableEq

def writeBlogToSheet (rows : List (List String)) (nowIso nowDate : String)
    (blogs : List BlogPost) : BlogWriteResult :=
  let entries := existingEntries nowIso nowDate rows
  let part := partitionBlogs entries nowIso blogs
  { updates := part.2.map (fun e => (e.2, serializeBlogRow e.1))
    appendedRows := part.1.map serializeBlogRow
    updated := part.2.length
    added := part.1.length
    success := true }

/-! ## deleteBlogFromSheet, lines 189-232 -/

/-- The forEach scan keeps overwriting rowToDelete, so the last matching
row wins; a match is Number(row[0]) === blogId, where NaN matches
nothing. Returns the deleted sheet row number and the remaining data
rows; a missing id throws before any request is issued, leaving the
sheet untouched. -/
def deleteBlogFromSheet (rows : List (List String)) (blogId : Int) :
    Except String (Nat × List (List String)) :=
  let found := rows.enum.filter (fun e => decide (jsCellNum e.2 0 = some blogId))
  match found.getLast? with
  | none => .error "Blog not found"
  | some (i, _) => .ok (i + 2, rows.eraseIdx i)

/-- The data rows after a deleteBlogFromSheet call: unchanged when the
call throws. -/
def sheetAfterDeleteBlog (rows : List (List String)) (blogId : Int) : List (List String) :=
  match deleteBlogFromSheet rows blogId with
  | .error _ => rows
  | .ok (_, rs) => rs

/-! ## addSingleBlog, lines 235-260 -/

/-- The Omit of BlogPost without id, createdAt, updatedAt. -/
structure BlogInput where
  title : String
  excerpt : String
  content : String
  blogURL : String
  authorName : String
  authorBio : String
  authorAvatar : String
  tags : List String
  image : String
  readTime : String
  featured : Bool
  status : String
  category : String
  date : String
deriving DecidableEq

def buildNewBlog (input : BlogInput) (newId : Int) (nowIso : String) : BlogPost :=
  { id := newId
    title := input.title
    excerpt := input.excerpt
    content := input.content
    blogURL := input.blogURL
    authorName := input.authorName
    authorBio := input.authorBio
    authorAvatar := input.authorAvatar
    tags := input.tags
    image := input.image
    readTime := input.readTime
    featured := input.featured
    status := input.status
    category := input.category
    date := input.date
    createdAt := nowIso
    updatedAt := nowIso }

structure AddSingleResult where
  success : Bool
  assignedId : Option Int
  message : Option String
deriving DecidableEq

/-- Math.max over the existing ids, plus one; 1 when the sheet is empty. -/
def nextBlogId (existing : List BlogPost) : Int :=
  match (existing.map (fun b => b.id)).max? with
  | some m => m + 1
  | none => 1

/-- Model of String.prototype.toLowerCase restricted to the ASCII range
Char.toLower covers, applied character by character. -/
def jsToLower (s : String) : String := String.mk (s.data.map Char.toLower)

/-- addSingleBlog: duplicate-title check, then delegation to
writeBlogToSheet. The second component is the write outcome, none when
the conflict branch returns early without touching the sheet. -/
def addSingleBlog (rows : List (List String)) (nowIso nowDate : String) (input : BlogInput) :
    AddSingleResult × Option BlogWriteResult :=
  let existing := readBlogFromSheet nowIso nowDate rows
  let newId := nextBlogId existing
  match existing.find? (fun b => decide (jsToLower b.title = jsToLower input.title)) with
  | some _ =>
    ({ success := false, assignedId := none,
       message := some "A blog with this title already exists" }, none)
  | none =>
    ({ success := true, assignedId := some newId, message := none },
     some (writeBlogToSheet rows nowIso nowDate [buildNewBlog input newId nowIso]))

/-! ## Drive CRUD (src/lib/driveSheetHelpers.ts)

getAllDrives builds each record as a dynamic JS object keyed by the
header row, so a drive is modelled as an association list of property
name to value, later entries overriding earlier ones exactly as object
spread does. A property value is a string, a boolean, or a JS number
that may be NaN (none). -/

inductive DVal
  | str : String → DVal
  | num : Option Int → DVal
  | boolv : Bool → DVal
deriving DecidableEq

abbrev JsObj := List (String × DVal)

/-- Property read o[k]: the last binding wins, none is undefined. -/
def getProp (o : JsObj) (k : String) : Option DVal :=
  (o.reverse.find? (fun e => decide (e.1 = k))).map (fun e => e.2)

/-- value.toString() as used when a drive row is written; NaN prints as
the string NaN, booleans as true and false. -/
def dvalToString : DVal → String
  | .str s => s
  | .num (some n) => jsStringOfInt n
  | .num none => "NaN"
  | .boolv b => if b then "true" else "false"

/-- JS truthiness of a possibly-undefined property value. -/
def jsTruthyD : Option DVal → Bool
  | none => false
  | some (.str s) => decide (s ≠ "")
  | some (.num none) => false
  | some (.num (some n)) => decide (n ≠ 0)
  | some (.boolv b) => b

/-- The longest leading digit run of a character list, as parseInt reads
it; none when there is no digit. -/
def leadingDigits (cs : List Char) : Option Nat :=
  let ds := cs.takeWhile Char.isDigit
  if ds = [] then none else parseDigits ds 0

/-- JS parseInt in base 10: leading whitespace skipped, optional sign,
longest digit prefix, NaN (none) when no digit follows. -/
def parseIntJs (s : String) : Option Int :=
  let cs := s.data.dropWhile isWs
  if cs.head? = some '-' then (leadingDigits cs.tail).map (fun n => -(n : Int))
  else if cs.head? = some '+' then (leadingDigits cs.tail).map (fun n => (n : Int))
  else (leadingDigits cs).map (fun n => (n : Int))

/-- Modelled from the spec: src/lib/driveSheetHeaders.ts is not under
src, so DRIVE_SHEET_HEADERS is reconstructed from the DriveData field
order of section 3 of the spec and the A:R (18 column) range the helpers
address. -/
def DRIVE_SHEET_HEADERS : List String :=
  ["id", "title", "location", "date", "participants", "treesTarget", "status",
   "registrationOpen", "description", "organizer", "contactEmail",
   "registrationDeadline", "meetingPoint", "duration", "difficulty", "logo",
   "createdAt", "updatedAt"]

/-- Modelled from the spec: validateDriveSheetData lives in the missing
src/lib/driveSheetHeaders.ts; the spec describes it as presence checks
for the required fields title, location, date, organizer and contact
email, and the helpers treat a failure as a thrown error. -/
def validateDriveSheetData (o : JsObj) : Bool :=
  ["title", "location", "date", "organizer", "contactEmail"].all
    (fun k => jsTruthyD (getProp o k))

/-- The switch of getAllDrives, lines 109-122: participants and
treesTarget parse to numbers with 0 for an empty cell, registrationOpen
compares against the literal true string, id parses when nonempty and
falls back to Date.now(), everything else stays a string. -/
def readDriveCell (header : String) (value : String) (nowMs : Int) : DVal :=
  if header = "participants" ∨ header = "treesTarget" then
    .num (if value ≠ "" then parseIntJs value else some 0)
  else if header = "registrationOpen" then .boolv (decide (value = "true"))
  else if header = "id" then .num (if value ≠ "" then parseIntJs value else some nowMs)
  else .str value

/-- headers.forEach building one drive object; row[index] coalesced with
the empty string first, line 106. -/
def buildDrive (headers : List String) (nowMs : Int) (row : List String) : JsObj :=
  headers.enum.map (fun e => (e.2, readDriveCell e.2 (row.getD e.1 "") nowMs))

/-- getAllDrives, lines 89-131: the first row is the header row, at most
one row means no data. -/
def getAllDrives (rows : List (List String)) (nowMs : Int) : List JsObj :=
  if rows.length ≤ 1 then []
  else
    match rows with
    | [] => []
    | headers :: dataRows => dataRows.map (buildDrive headers nowMs)

/-- drive.id?.toString() === id.toString(): undefined matches nothing. -/
def driveIdMatches (d : JsObj) (id : String) : Bool :=
  match getProp d "id" with
  | none => false
  | some v => decide (dvalToString v = id)

/-- Serialization of a drive object over the header columns, lines
157-160 and 203-206: defined properties print with toString, undefined
becomes the empty cell. -/
def serializeDriveRow (o : JsObj) : List String :=
  DRIVE_SHEET_HEADERS.map (fun h =>
    match getProp o h with
    | some v => dvalToString v
    | none => "")

/-- addDrive, lines 136-176. The input object is spread and then id (kept
when truthy, else the Date.now string), fresh timestamps and the
defaulted fields are written on top; the row is appended. Returns the
new drive object and the appended row. -/
def addDrive (nowMs : Int) (nowIso : String) (driveData : JsObj) :
    Except String (JsObj × List String) :=
  if validateDriveSheetData driveData then
    let newDrive : JsObj := driveData ++ ([
      ("id", if jsTruthyD (getProp driveData "id") then (getProp driveData "id").getD (.str "")
             else .str (jsStringOfInt nowMs)),
      ("createdAt", .str nowIso),
      ("updatedAt", .str nowIso),
      ("participants", if jsTruthyD (getProp driveData "participants") then
          (getProp driveData "participants").getD (.str "") else .num (some 0)),
      ("treesTarget", if jsTruthyD (getProp driveData "treesTarget") then
          (getProp driveData "treesTarget").getD (.str "") else .num (some 0)),
      ("status", if jsTruthyD (getProp driveData "status") then
          (getProp driveData "status").getD (.str "") else .str "upcoming"),
      ("registrationOpen", match getProp driveData "registrationOpen" with
        | none => .boolv true
        | some v => v),
      ("difficulty", if jsTruthyD (getProp driveData "difficulty") then
          (getProp driveData "difficulty").getD (.str "") else .str "Easy")] : List (String × DVal))
    .ok (newDrive, serializeDriveRow newDrive)
  else .error "Validation failed"

/-- updateDrive, lines 181-224: validates the patch merged with the id,
finds the first drive whose id prints to the given id, overlays the
patch and a fresh updatedAt, and rewrites that row. Returns the sheet
row number, the written cells and the returned object. -/
def updateDrive (rows : List (List String)) (nowMs : Int) (nowIso : String)
    (id : String) (patch : JsObj) : Except String (Nat × List String × JsObj) :=
  if validateDriveSheetData (patch ++ ([("id", .str id)] : List (String × DVal))) then
    let allDrives := getAllDrives rows nowMs
    match allDrives.findIdx? (fun d => driveIdMatches d id) with
    | none => .error "Drive not found"
    | some i =>
      let updated : JsObj := (allDrives.getD i []) ++ patch ++
        ([("updatedAt", .str nowIso)] : List (String × DVal))
      .ok (i + 2, serializeDriveRow updated, updated)
  else .error "Validation failed"

/-- deleteDrive, lines 229-265: first matching drive, row number is the
data index plus 2; the sheet row with that number is removed (the rows
list here includes the header row at position 0). -/
def deleteDrive (rows : List (List String)) (nowMs : Int) (id : String) :
    Except String (Nat × List (List String)) :=
  let allDrives := getAllDrives rows nowMs
  match allDrives.findIdx? (fun d => driveIdMatches d id) with
  | none => .error "Drive not found"
  | some i => .ok (i + 2, rows.eraseIdx (i + 1))

/-- The sheet rows after a deleteDrive call: unchanged when it throws. -/
def sheetAfterDeleteDrive (rows : List (List String)) (nowMs : Int) (id : String) :
    List (List String) :=
  match deleteDrive rows nowMs id with
  | .error _ => rows
  | .ok (_, rs) => rs

/-! ## RunningBanner rotation (src/unnamed/part_000, lines 64-110) -/

/-- What the banner keeps of a drive for its filter: the status string
and the registration flag. -/
structure BannerDrive where
  status : String
  registrationOpen : Bool
deriving DecidableEq

/-- The component state: the cached filtered drive list and the
displayed index. -/
structure BannerState where
  drives : List BannerDrive
  index : Nat
deriving DecidableEq

/-- A step of the banner: a 5-second interval tick, or an
adminDataUpdate event for the currentDrives section carrying new data. -/
inductive BannerEvent
  | tick : BannerEvent
  | update : List BannerDrive → BannerEvent

def bannerFilter (ds : List BannerDrive) : List BannerDrive :=
  ds.filter (fun d => decide (d.status = "upcoming") && d.registrationOpen)

/-- The transition function: the interval only runs when more than one
drive is cached (lines 103-110), and the update handler replaces the
list with the filtered data and resets the index only when it falls at
or beyond the new length (lines 85-96). -/
def bannerStep : BannerState → BannerEvent → BannerState
  | s, .tick =>
    if 1 < s.drives.length then { s with index := (s.index + 1) % s.drives.length } else s
  | s, .update data =>
    let upd := bannerFilter data
    { drives := upd, index := if upd.length ≤ s.index then 0 else s.index }

/-- A concrete incoming record whose id is absent from the one-row sheet
used against the id-assignment claim: id 42 with a stale createdAt. -/
def staleIncomingBlog : BlogPost :=
  { id := 42
    title := "T"
    excerpt := ""
    content := ""
    blogURL := ""
    authorName := ""
    authorBio := ""
    authorAvatar := ""
    tags := []
    image := ""
    readTime := ""
    featured := false
    status := "draft"
    category := ""
    date := "2025-05-05"
    createdAt := "2020-01-01"
    updatedAt := "old" }

/-- A minimal valid drive input without an id, for instantiating the
id-assignment statements. -/
def minimalDriveInput : JsObj :=
  [("title", .str "T"), ("location", .str "L"), ("date", .str "2025-01-01"),
   ("organizer", .str "O"), ("contactEmail", .str "E")]

/-- A blog input whose title collides with nothing in the one-row
sheet. -/
def freshTitleInput : BlogInput :=
  { title := "Fresh"
    excerpt := ""
    content := ""
    blogURL := ""
    authorName := ""
    authorBio := ""
    authorAvatar := ""
    tags := []
    image := ""
    readTime := ""
    featured := false
    status := "draft"
    category := ""
    date := "2025-01-01" }

/-! ### The updateDrive frame property -/

instance exceptDecEq {ε α : Type _} [DecidableEq ε] [DecidableEq α] :
    DecidableEq (Except ε α)
  | .error a, .error b =>
    if h : a = b then isTrue (h ▸ rfl) else isFalse (fun hc => h (Except.error.inj hc))
  | .error _, .ok _ => isFalse (fun hc => Except.noConfusion hc)
  | .ok _, .error _ => isFalse (fun hc => Except.noConfusion hc)
  | .ok a, .ok b =>
    if h : a = b then isTrue (h ▸ rfl) else isFalse (fun hc => h (Except.ok.inj hc))

/-- A valid 18-column drive sheet with one data row of id 1, used to
instantiate the updateDrive statements. -/
def sampleDriveRows : List (List String) :=
  [DRIVE_SHEET_HEADERS,
   ["1", "T", "L", "2025-01-01", "0", "0", "upcoming", "true", "", "O", "E",
    "", "", "", "Easy", "", "C0", "U0"]]

/-- A patch that passes the required-field presence check and renames the
location. -/
def sampleDrivePatch : JsObj :=
  [("title", .str "T"), ("location", .str "L2"), ("date", .str "2025-01-01"),
   ("organizer", .str "O"), ("contactEmail", .str "E")]

/-! ## Theorems -/

theorem digitVal?_digitChar (d : Nat) (h : d < 10) : digitVal? (digitChar d) = some d := by
  interval_cases d <;> rfl

theorem parseDigits_append (l1 l2 : List Char) (acc : Nat) :
    parseDigits (l1 ++ l2) acc =
      match parseDigits l1 acc with
      | some v => parseDigits l2 v
      | none => none := by
  induction l1 generalizing acc with
  | nil => rfl
  | cons c cs ih =>
    simp only [List.cons_append, parseDigits]
    cases digitVal? c with
    | some d => exact ih _
    | none => rfl

theorem parseDigits_natDigitsRevFuel (fuel : Nat) :
    ∀ n, n ≤ fuel → ∀ acc,
      parseDigits (natDigitsRevFuel fuel n).reverse acc =
        some (acc * 10 ^ (natDigitsRevFuel fuel n).length + n) := by
  induction fuel with
  | zero =>
    intro n hn acc
    interval_cases n
    simp [natDigitsRevFuel, parseDigits]
  | succ f ih =>
    intro n hn acc
    match n with
    | 0 => simp [natDigitsRevFuel, parseDigits]
    | m + 1 =>
      have hdiv : (m + 1) / 10 ≤ f := by
        have := Nat.div_lt_self (Nat.succ_pos m) (show 1 < 10 by norm_num)
        omega
      have hmod : (m + 1) % 10 < 10 := Nat.mod_lt _ (by norm_num)
      have hdm : 10 * ((m + 1) / 10) + (m + 1) % 10 = m + 1 := Nat.div_add_mod (m + 1) 10
      simp only [natDigitsRevFuel, List.reverse_cons, parseDigits_append]
      rw [ih ((m + 1) / 10) hdiv acc]
      simp only [parseDigits, digitVal?_digitChar _ hmod, List.length_cons]
      congr 1
      calc 10 * (acc * 10 ^ (natDigitsRevFuel f ((m + 1) / 10)).length + (m + 1) / 10) + (m + 1) % 10
          = acc * 10 ^ ((natDigitsRevFuel f ((m + 1) / 10)).length + 1) +
              (10 * ((m + 1) / 10) + (m + 1) % 10) := by ring
        _ = acc * 10 ^ ((natDigitsRevFuel f ((m + 1) / 10)).length + 1) + (m + 1) := by rw [hdm]

theorem toNat_digitChar (d : Nat) (h : d < 10) : (digitChar d).toNat = 48 + d := by
  interval_cases d <;> rfl

theorem natDigitsRevFuel_ne_nil (fuel n : Nat) (h1 : 0 < n) (h2 : n ≤ fuel) :
    natDigitsRevFuel fuel n ≠ [] := by
  match fuel, n with
  | 0, n => omega
  | fuel + 1, 0 => omega
  | fuel + 1, n + 1 => simp [natDigitsRevFuel]

theorem parseNatChars_jsStringOfNat (n : Nat) :
    parseNatChars (jsStringOfNat n).data = some n := by
  by_cases h : n = 0
  · subst h; rfl
  · have hne : natDigitsRevFuel n n ≠ [] := natDigitsRevFuel_ne_nil n n (Nat.pos_of_ne_zero h) le_rfl
    have hd : (jsStringOfNat n).data = (natDigitsRevFuel n n).reverse := by
      simp [jsStringOfNat, h]
    rw [hd]
    have hrne : (natDigitsRevFuel n n).reverse ≠ [] := by
      simpa using hne
    simp only [parseNatChars, hrne, if_neg (by exact hrne)]
    rw [parseDigits_natDigitsRevFuel n n le_rfl 0]
    simp

theorem mem_natDigitsRevFuel_is_digit (fuel : Nat) :
    ∀ n c, c ∈ natDigitsRevFuel fuel n → 48 ≤ c.toNat ∧ c.toNat ≤ 57 := by
  induction fuel with
  | zero =>
    intro n c hc
    match n with
    | 0 => simp [natDigitsRevFuel] at hc
    | _ + 1 => simp [natDigitsRevFuel] at hc
  | succ f ih =>
    intro n c hc
    match n with
    | 0 => simp [natDigitsRevFuel] at hc
    | m + 1 =>
      simp only [natDigitsRevFuel, List.mem_cons] at hc
      rcases hc with hc | hc
      · subst hc
        have hm : (m + 1) % 10 < 10 := Nat.mod_lt _ (by norm_num)
        rw [toNat_digitChar _ hm]
        omega
      · exact ih _ _ hc

theorem jsStringOfNat_head_not_minus (n : Nat) :
    (jsStringOfNat n).data.head? ≠ some '-' := by
  by_cases h : n = 0
  · subst h; decide
  · have hd : (jsStringOfNat n).data = (natDigitsRevFuel n n).reverse := by
      simp [jsStringOfNat, h]
    rw [hd]
    intro hcontra
    have hmem : '-' ∈ (natDigitsRevFuel n n).reverse := by
      cases hr : (natDigitsRevFuel n n).reverse with
      | nil => rw [hr] at hcontra; simp at hcontra
      | cons a l =>
        rw [hr] at hcontra
        simp at hcontra
        rw [hcontra] at hr ⊢
        simp
    rw [List.mem_reverse] at hmem
    have := mem_natDigitsRevFuel_is_digit n n '-' hmem
    revert this
    decide

theorem jsStringOfNat_ne_empty (n : Nat) : jsStringOfNat n ≠ "" := by
  by_cases h : n = 0
  · subst h; decide
  · have hne : natDigitsRevFuel n n ≠ [] := natDigitsRevFuel_ne_nil n n (Nat.pos_of_ne_zero h) le_rfl
    simp only [jsStringOfNat, h, if_neg h]
    intro hcontra
    have hrev : (natDigitsRevFuel n n).reverse = [] := congrArg String.data hcontra
    rw [List.reverse_eq_nil_iff] at hrev
    exact hne hrev

/-- Round trip: JS Number applied to the decimal printing of an integer
recovers the integer. -/
theorem jsNum_jsStringOfInt (i : Int) : jsNum (jsStringOfInt i) = some i := by
  by_cases hneg : i < 0
  · have hs : jsStringOfInt i = "-" ++ jsStringOfNat i.natAbs := by
      simp [jsStringOfInt, hneg]
    have hdata : (jsStringOfInt i).data = '-' :: (jsStringOfNat i.natAbs).data := by
      rw [hs]; rfl
    have hne : jsStringOfInt i ≠ "" := by
      intro hcontra
      have hdc : (jsStringOfInt i).data = [] := congrArg String.data hcontra
      rw [hdata] at hdc
      exact List.cons_ne_nil _ _ hdc
    simp only [jsNum, if_neg hne, hdata, jsNumChars, List.head?, List.tail]
    rw [parseNatChars_jsStringOfNat]
    show some (-(i.natAbs : Int)) = some i
    congr 1
    omega
  · have hs : jsStringOfInt i = jsStringOfNat i.toNat := by
      simp [jsStringOfInt, hneg]
    have hne2 : jsStringOfNat i.toNat ≠ "" := jsStringOfNat_ne_empty _
    rw [hs]
    simp only [jsNum, if_neg hne2, jsNumChars]
    rw [if_neg (jsStringOfNat_head_not_minus _)]
    rw [parseNatChars_jsStringOfNat]
    show some ((i.toNat : Int)) = some i
    congr 1
    omega

theorem jsStringOfInt_injective : Function.Injective jsStringOfInt := by
  intro a b hab
  have ha := jsNum_jsStringOfInt a
  rw [hab, jsNum_jsStringOfInt b] at ha
  exact (Option.some.inj ha).symm

theorem splitComma_ne_nil (l : List Char) : splitComma l ≠ [] := by
  match l with
  | [] => simp [splitComma]
  | c :: cs =>
    simp only [splitComma]
    by_cases hc : c = ','
    · simp [hc]
    · simp only [if_neg hc]
      cases h : splitComma cs <;> simp

theorem splitComma_pieces_comma_free (l : List Char) :
    ∀ p ∈ splitComma l, ',' ∉ p := by
  induction l with
  | nil =>
    intro p hp
    simp [splitComma] at hp
    simp [hp]
  | cons c cs ih =>
    intro p hp
    simp only [splitComma] at hp
    by_cases hc : c = ','
    · rw [if_pos hc] at hp
      rcases List.mem_cons.mp hp with h | h
      · simp [h]
      · exact ih p h
    · rw [if_neg hc] at hp
      cases hsplit : splitComma cs with
      | nil => exact absurd hsplit (splitComma_ne_nil cs)
      | cons q qs =>
        rw [hsplit] at hp
        rcases List.mem_cons.mp hp with h | h
        · subst h
          intro hmem
          rcases List.mem_cons.mp hmem with h | h
          · exact hc h.symm
          · exact ih q (by rw [hsplit]; exact List.mem_cons_self q qs) h
        · exact ih p (by rw [hsplit]; exact List.mem_cons_of_mem q h)

theorem splitComma_cons_of_ne (c : Char) (l : List Char) (hc : c ≠ ',') (p : List Char)
    (ps : List (List Char)) (h : splitComma l = p :: ps) :
    splitComma (c :: l) = (c :: p) :: ps := by
  simp only [splitComma, if_neg hc, h]

theorem splitComma_append_comma (t rest : List Char) (h : ',' ∉ t) :
    splitComma (t ++ ',' :: rest) = t :: splitComma rest := by
  induction t with
  | nil => simp [splitComma]
  | cons a t' ih =>
    have ha : a ≠ ',' := fun hc => h (hc ▸ List.mem_cons_self a t')
    have ht' : ',' ∉ t' := fun hc => h (List.mem_cons_of_mem a hc)
    rw [List.cons_append]
    exact splitComma_cons_of_ne a (t' ++ ',' :: rest) ha t' (splitComma rest) (ih ht')

theorem splitComma_of_comma_free (t : List Char) (h : ',' ∉ t) : splitComma t = [t] := by
  induction t with
  | nil => rfl
  | cons a t' ih =>
    have ha : a ≠ ',' := fun hc => h (hc ▸ List.mem_cons_self a t')
    have ht' : ',' ∉ t' := fun hc => h (List.mem_cons_of_mem a hc)
    exact splitComma_cons_of_ne a t' ha t' [] (ih ht')

theorem joinCommaSpace_cons₂ (t u : List Char) (ts : List (List Char)) :
    joinCommaSpace (t :: u :: ts) = t ++ ',' :: ' ' :: joinCommaSpace (u :: ts) := rfl

theorem splitComma_joinCommaSpace (t : List Char) (ts : List (List Char))
    (h : ∀ u ∈ t :: ts, ',' ∉ u) :
    splitComma (joinCommaSpace (t :: ts)) = t :: ts.map (fun u => ' ' :: u) := by
  induction ts generalizing t with
  | nil =>
    simp only [joinCommaSpace, List.map_nil]
    exact splitComma_of_comma_free t (h t (List.mem_cons_self t []))
  | cons u ts' ih =>
    have ht : ',' ∉ t := h t (List.mem_cons_self t _)
    have hrest : ∀ v ∈ u :: ts', ',' ∉ v := fun v hv => h v (List.mem_cons_of_mem t hv)
    rw [joinCommaSpace_cons₂, splitComma_append_comma t _ ht]
    have hspace : (' ' : Char) ≠ ',' := by decide
    have hih := ih u hrest
    rw [splitComma_cons_of_ne ' ' _ hspace u (ts'.map (fun v => ' ' :: v)) hih]
    simp

theorem dropWhile_dropWhile (p : α → Bool) (l : List α) :
    (l.dropWhile p).dropWhile p = l.dropWhile p := by
  induction l with
  | nil => rfl
  | cons a l' ih =>
    by_cases hp : p a
    · simp [List.dropWhile_cons_of_pos hp, ih]
    · simp [List.dropWhile_cons_of_neg hp, hp]

theorem dropWhile_eq_self_of_head_clean (p : α → Bool) (l : List α)
    (h : ∀ a, l.head? = some a → p a = false) : l.dropWhile p = l := by
  cases l with
  | nil => rfl
  | cons a l' =>
    have hpa : ¬ p a = true := by simp [h a rfl]
    simp [List.dropWhile_cons_of_neg hpa]

theorem head_clean_dropWhile (p : α → Bool) (l : List α) :
    ∀ a, (l.dropWhile p).head? = some a → p a = false := by
  intro a ha
  have := List.head?_dropWhile_not p l
  rw [ha] at this
  exact this

theorem getLast?_dropWhile (p : α → Bool) (l : List α) (h : l.dropWhile p ≠ []) :
    (l.dropWhile p).getLast? = l.getLast? := by
  induction l with
  | nil => rfl
  | cons a l' ih =>
    by_cases hp : p a
    · rw [List.dropWhile_cons_of_pos hp] at h ⊢
      have hl' : l' ≠ [] := by
        intro hc
        subst hc
        exact h rfl
      rw [ih h]
      cases l' with
      | nil => exact absurd rfl hl'
      | cons b l'' => simp [List.getLast?_cons_cons]
    · rw [List.dropWhile_cons_of_neg hp]

theorem trimChars_idem (l : List Char) : trimChars (trimChars l) = trimChars l := by
  unfold trimChars
  set a := l.dropWhile isWs with ha
  set b := a.reverse.dropWhile isWs with hb
  by_cases hbe : b = []
  · simp [hbe]
  · have hhead : ∀ c, b.reverse.head? = some c → isWs c = false := by
      intro c hc
      rw [List.head?_reverse] at hc
      have hgl : b.getLast? = a.reverse.getLast? := by
        rw [hb]
        exact getLast?_dropWhile isWs a.reverse (by rw [← hb]; exact hbe)
      rw [hgl, List.getLast?_reverse] at hc
      exact head_clean_dropWhile isWs l c (ha ▸ hc)
    rw [dropWhile_eq_self_of_head_clean isWs b.reverse hhead]
    rw [List.reverse_reverse]
    rw [hb, dropWhile_dropWhile]

theorem trimChars_cons_space (l : List Char) : trimChars (' ' :: l) = trimChars l := by
  unfold trimChars
  rw [List.dropWhile_cons_of_pos (by decide)]

theorem trimChars_subset (l : List Char) : trimChars l ⊆ l := by
  intro c hc
  unfold trimChars at hc
  rw [List.mem_reverse] at hc
  have h1 := (List.dropWhile_sublist (l := (l.dropWhile isWs).reverse) isWs).subset hc
  rw [List.mem_reverse] at h1
  exact (List.dropWhile_sublist isWs).subset h1

theorem comma_free_trimChars (l : List Char) (h : ',' ∉ l) : ',' ∉ trimChars l :=
  fun hc => h (trimChars_subset l hc)

theorem string_eta (s : String) : String.mk s.data = s := by
  cases s
  rfl

theorem stringMk_eq_empty_iff (l : List Char) : String.mk l = "" ↔ l = [] := by
  constructor
  · intro h
    exact congrArg String.data h
  · intro h
    subst h
    rfl

theorem readTags_canonical (cell : String) : ∀ s ∈ readTags cell, canonicalTag s := by
  intro s hs
  unfold readTags at hs
  by_cases hc : cell = ""
  · simp [hc] at hs
  · rw [if_neg hc] at hs
    rcases List.mem_map.mp hs with ⟨p, hp, hps⟩
    subst hps
    constructor
    · exact trimChars_idem p
    · exact comma_free_trimChars p (splitComma_pieces_comma_free cell.data p hp)

theorem joinCommaSpace_eq_nil_cases (ts : List (List Char)) (h : joinCommaSpace ts = []) :
    ts = [] ∨ ts = [[]] := by
  match ts with
  | [] => exact Or.inl rfl
  | [t] =>
    right
    simp only [joinCommaSpace] at h
    rw [h]
  | t :: u :: ts' =>
    exfalso
    rw [joinCommaSpace_cons₂] at h
    rcases List.append_eq_nil.mp h with ⟨-, hcons⟩
    exact List.cons_ne_nil _ _ hcons

/-- Applying split-trim to a join of canonical tags recovers the tags;
together with the empty-join corner cases this gives the cell-level
idempotence of the tags column. -/
theorem joinTags_readTags_joinTags (ts : List String) (h : ∀ s ∈ ts, canonicalTag s) :
    joinTags (readTags (joinTags ts)) = joinTags ts := by
  by_cases hnil : joinCommaSpace (ts.map String.data) = []
  · have hcell : joinTags ts = "" := by
      unfold joinTags
      rw [hnil]
    rw [hcell]
    have hrt : readTags "" = [] := by simp [readTags]
    rw [hrt]
    unfold joinTags
    simp [joinCommaSpace]
  · have hcellne : joinTags ts ≠ "" := by
      unfold joinTags
      rw [Ne, stringMk_eq_empty_iff]
      exact hnil
    match ts, h with
    | [], _ => simp [joinTags, joinCommaSpace] at hcellne
    | t :: ts', h =>
      have hfree : ∀ u ∈ t.data :: ts'.map String.data, ',' ∉ u := by
        intro u hu
        rcases List.mem_cons.mp hu with hu | hu
        · subst hu
          exact (h t (List.mem_cons_self t ts')).2
        · rcases List.mem_map.mp hu with ⟨s, hs, hsu⟩
          subst hsu
          exact (h s (List.mem_cons_of_mem t hs)).2
      have hread : readTags (joinTags (t :: ts')) = t :: ts' := by
        unfold readTags
        rw [if_neg hcellne]
        have hdata : (joinTags (t :: ts')).data = joinCommaSpace ((t :: ts').map String.data) := rfl
        rw [hdata]
        simp only [List.map_cons]
        rw [splitComma_joinCommaSpace t.data (ts'.map String.data) hfree]
        simp only [List.map_cons, List.map_map]
        rw [(h t (List.mem_cons_self t ts')).1, string_eta]
        congr 1
        have hcongr : ∀ s ∈ ts',
            ((fun p => (⟨trimChars p⟩ : String)) ∘ (fun u => ' ' :: u) ∘ String.data) s = id s := by
          intro s hs
          simp only [Function.comp, id]
          rw [trimChars_cons_space, (h s (List.mem_cons_of_mem t hs)).1, string_eta]
        exact (List.map_congr_left hcongr).trans (List.map_id ts')
      rw [hread]

theorem idOrIndex_ne_zero (c : Option Int) (index : Nat) : idOrIndex c index ≠ 0 := by
  match c with
  | none => simp [idOrIndex]; omega
  | some n =>
    simp only [idOrIndex]
    by_cases hn : n = 0
    · rw [if_pos hn]; omega
    · rw [if_neg hn]; exact hn

theorem orDefault_ne_empty (s d : String) (hd : d ≠ "") : orDefault s d ≠ "" := by
  unfold orDefault
  by_cases hs : s = ""
  · rw [if_pos hs]; exact hd
  · rw [if_neg hs]; exact hs

theorem orDefault_of_ne_empty (s d : String) (hs : s ≠ "") : orDefault s d = s := by
  simp [orDefault, hs]

theorem readBlogRow_wellFormed (index : Nat) (nowIso nowDate : String) (row : List String)
    (h1 : nowIso ≠ "") (h2 : nowDate ≠ "") :
    WellFormedBlog (readBlogRow index nowIso nowDate row) := by
  refine ⟨idOrIndex_ne_zero _ _, ?_, ?_, ?_, ?_, ?_⟩
  · exact orDefault_ne_empty _ _ (by decide)
  · exact orDefault_ne_empty _ _ h2
  · exact orDefault_ne_empty _ _ h1
  · exact orDefault_ne_empty _ _ h1
  · exact readTags_canonical _

/-- Reading back a serialized well-formed record and serializing again
reproduces the same row, whatever the clock shows the second time. -/
theorem serialize_read_serialize (b : BlogPost) (hb : WellFormedBlog b) (i : Nat)
    (now2 nd2 : String) :
    serializeBlogRow (readBlogRow i now2 nd2 (serializeBlogRow b)) = serializeBlogRow b := by
  obtain ⟨hid, hstatus, hdate, hcreated, hupdated, htags⟩ := hb
  have hfeat : decide ((if b.featured then "true" else "false") = "true") = b.featured := by
    cases b.featured <;> rfl
  have htagscell : joinTags (readTags (joinTags b.tags)) = joinTags b.tags :=
    joinTags_readTags_joinTags b.tags htags
  simp [readBlogRow, serializeBlogRow, jsCellNum, jsNum_jsStringOfInt, idOrIndex, hid,
    hfeat, htagscell, orDefault_of_ne_empty _ _ hstatus, orDefault_of_ne_empty _ _ hdate,
    orDefault_of_ne_empty _ _ hcreated, orDefault_of_ne_empty _ _ hupdated]

/-! ## Supporting lemmas about the upsert partition -/

theorem hasExisting_of_lookup (entries : List (BlogPost × Nat)) (key : String)
    (e : BlogPost × Nat) (h : lookupExisting entries key = some e) :
    hasExisting entries key = true := by
  have hmem := List.mem_of_find?_eq_some h
  have hpred := List.find?_some h
  rw [List.mem_reverse] at hmem
  unfold hasExisting
  rw [List.any_eq_true]
  exact ⟨e, hmem, hpred⟩

theorem hasBlogChanged_tags_only (ex : BlogPost) (ts : List String) :
    hasBlogChanged ex { ex with tags := ts } = false := by
  simp [hasBlogChanged, fieldsToCompare, fieldChanged, blogField]

/-- Claim C9: a batch record matching a stored record in everything but
tags is treated as unchanged by writeBlogToSheet: no update, no append,
and it is counted in neither updated nor added, because the fixed field
list of hasBlogChanged does not contain tags. -/
theorem claim9_tags_only_difference_ignored (rows : List (List String))
    (nowIso nowDate : String) (ts : List String) (ex : BlogPost) (ri : Nat)
    (hlook : lookupExisting (existingEntries nowIso nowDate rows)
      (blogKey { ex with tags := ts }) = some (ex, ri)) :
    writeBlogToSheet rows nowIso nowDate [{ ex with tags := ts }] =
      { updates := [], appendedRows := [], updated := 0, added := 0, success := true } := by
  have hhas := hasExisting_of_lookup _ _ _ hlook
  simp [writeBlogToSheet, partitionBlogs, hhas, hlook, hasBlogChanged_tags_only]

theorem claim9_tags_only_difference_ignored_witness :
    writeBlogToSheet [["1", "A"]] "N" "D"
        [{ readBlogRow 0 "N" "D" ["1", "A"] with tags := ["x"] }] =
      { updates := [], appendedRows := [], updated := 0, added := 0, success := true } :=
  claim9_tags_only_difference_ignored [["1", "A"]] "N" "D" ["x"]
    (readBlogRow 0 "N" "D" ["1", "A"]) 2 (by decide)

/-- Claim C1: a batch of one unmodified existing record and one new
record yields updated = 0 and added = 1; no row update is issued and
exactly one row is appended. -/
theorem claim1_unmodified_plus_new (rows : List (List String)) (nowIso nowDate : String)
    (a b : BlogPost) (ex : BlogPost) (ri : Nat)
    (ha : lookupExisting (existingEntries nowIso nowDate rows) (blogKey a) = some (ex, ri))
    (hunchanged : hasBlogChanged ex a = false)
    (hb : hasExisting (existingEntries nowIso nowDate rows) (blogKey b) = false) :
    writeBlogToSheet rows nowIso nowDate [a, b] =
      { updates := [], appendedRows := [serializeBlogRow (freshNewBlog b nowIso)],
        updated := 0, added := 1, success := true } := by
  have hhas := hasExisting_of_lookup _ _ _ ha
  simp [writeBlogToSheet, partitionBlogs, hhas, ha, hunchanged, hb]

theorem claim1_unmodified_plus_new_witness :
    writeBlogToSheet [["1", "A"]] "N" "D"
        [readBlogRow 0 "N" "D" ["1", "A"],
         { readBlogRow 0 "N" "D" ["1", "A"] with id := 7 }] =
      { updates := [],
        appendedRows :=
          [serializeBlogRow (freshNewBlog { readBlogRow 0 "N" "D" ["1", "A"] with id := 7 } "N")],
        updated := 0, added := 1, success := true } :=
  claim1_unmodified_plus_new [["1", "A"]] "N" "D"
    (readBlogRow 0 "N" "D" ["1", "A"])
    { readBlogRow 0 "N" "D" ["1", "A"] with id := 7 }
    (readBlogRow 0 "N" "D" ["1", "A"]) 2 (by decide) (by decide) (by decide)

/-- Claim C5: when some stored blog has the same title up to case,
addSingleBlog returns a failure result with a message instead of
throwing, and delegates no write at all, so no row is appended. -/
theorem claim5_duplicate_title_conflict (rows : List (List String))
    (nowIso nowDate : String) (input : BlogInput) (b : BlogPost)
    (hb : b ∈ readBlogFromSheet nowIso nowDate rows)
    (htitle : jsToLower b.title = jsToLower input.title) :
    addSingleBlog rows nowIso nowDate input =
      ({ success := false, assignedId := none,
         message := some "A blog with this title already exists" }, none) := by
  unfold addSingleBlog
  cases hfind : (readBlogFromSheet nowIso nowDate rows).find?
      (fun x => decide (jsToLower x.title = jsToLower input.title)) with
  | none =>
    rw [List.find?_eq_none] at hfind
    exact absurd (by simp [htitle] : (fun x => decide (jsToLower x.title = jsToLower input.title)) b = true)
      (by simpa using hfind b hb)
  | some c => simp [hfind]

theorem claim5_duplicate_title_conflict_witness :
    addSingleBlog [["1", "Re-USE"]] "N" "D"
        { title := "re-use", excerpt := "", content := "", blogURL := "", authorName := "",
          authorBio := "", authorAvatar := "", tags := [], image := "", readTime := "",
          featured := false, status := "draft", category := "", date := "2025-01-01" } =
      ({ success := false, assignedId := none,
         message := some "A blog with this title already exists" }, none) :=
  claim5_duplicate_title_conflict [["1", "Re-USE"]] "N" "D"
    { title := "re-use", excerpt := "", content := "", blogURL := "", authorName := "",
      authorBio := "", authorAvatar := "", tags := [], image := "", readTime := "",
      featured := false, status := "draft", category := "", date := "2025-01-01" }
    (readBlogRow 0 "N" "D" ["1", "Re-USE"]) (by decide) (by decide)

theorem snd_mem_of_mem_enum {α : Type _} {l : List α} {e : Nat × α} (h : e ∈ l.enum) :
    e.2 ∈ l := by
  rw [List.mem_enum_iff_getElem?] at h
  exact List.getElem?_mem h

/-- Claim C4: deleting an id that no stored row carries fails with the
NotFound error for both entities, before any mutation request, so the
sheet stays exactly as it was. -/
theorem claim4_delete_missing_id_not_found :
    (∀ (rows : List (List String)) (blogId : Int),
      (∀ r ∈ rows, jsCellNum r 0 ≠ some blogId) →
        deleteBlogFromSheet rows blogId = .error "Blog not found" ∧
          sheetAfterDeleteBlog rows blogId = rows) ∧
    (∀ (rows : List (List String)) (nowMs : Int) (id : String),
      (∀ d ∈ getAllDrives rows nowMs, driveIdMatches d id = false) →
        deleteDrive rows nowMs id = .error "Drive not found" ∧
          sheetAfterDeleteDrive rows nowMs id = rows) := by
  constructor
  · intro rows blogId hnone
    have hfilter : rows.enum.filter (fun e => decide (jsCellNum e.2 0 = some blogId)) = [] := by
      rw [List.filter_eq_nil_iff]
      intro e he
      simpa using hnone e.2 (snd_mem_of_mem_enum he)
    have hdel : deleteBlogFromSheet rows blogId = .error "Blog not found" := by
      unfold deleteBlogFromSheet
      rw [hfilter]
      rfl
    exact ⟨hdel, by unfold sheetAfterDeleteBlog; rw [hdel]⟩
  · intro rows nowMs id hnone
    have hfind : (getAllDrives rows nowMs).findIdx? (fun d => driveIdMatches d id) = none := by
      rw [List.findIdx?_eq_none_iff]
      intro d hd
      simpa using hnone d hd
    have hdel : deleteDrive rows nowMs id = .error "Drive not found" := by
      simp [deleteDrive, hfind]
    exact ⟨hdel, by unfold sheetAfterDeleteDrive; rw [hdel]⟩

theorem claim4_delete_missing_id_not_found_witness :
    (deleteBlogFromSheet [["1", "A"]] 9 = .error "Blog not found" ∧
      sheetAfterDeleteBlog [["1", "A"]] 9 = [["1", "A"]]) ∧
    (deleteDrive [DRIVE_SHEET_HEADERS, ["1", "T", "L", "2025-01-01"]] 1000 "9" =
        .error "Drive not found" ∧
      sheetAfterDeleteDrive [DRIVE_SHEET_HEADERS, ["1", "T", "L", "2025-01-01"]] 1000 "9" =
        [DRIVE_SHEET_HEADERS, ["1", "T", "L", "2025-01-01"]]) :=
  ⟨claim4_delete_missing_id_not_found.1 [["1", "A"]] 9 (by decide),
   claim4_delete_missing_id_not_found.2 [DRIVE_SHEET_HEADERS, ["1", "T", "L", "2025-01-01"]]
     1000 "9" (by decide)⟩

/-- Claim C2: mapping a sheet row to a BlogPost and back to a row is
idempotent: a second application of the round trip reproduces the row of
the first application cell for cell, the tags cell, the boolean cell and
every string cell included; in particular the timestamp cells, already
filled by the first pass, do not move again. The clock strings of the
first pass are nonempty, as ISO date strings are. -/
theorem claim2_row_record_row_idempotent (row : List String) (i : Nat)
    (now1 nd1 now2 nd2 : String) (h1 : now1 ≠ "") (h2 : nd1 ≠ "") :
    serializeBlogRow (readBlogRow i now2 nd2 (serializeBlogRow (readBlogRow i now1 nd1 row))) =
      serializeBlogRow (readBlogRow i now1 nd1 row) :=
  serialize_read_serialize (readBlogRow i now1 nd1 row)
    (readBlogRow_wellFormed i now1 nd1 row h1 h2) i now2 nd2

theorem claim2_row_record_row_idempotent_witness :
    serializeBlogRow (readBlogRow 0 "M" "E"
        (serializeBlogRow (readBlogRow 0 "N" "D"
          ["1", "A", "x", "c", "u", "an", "ab", "av", "a,b , c", "im", "5 min", "true",
           "published", "cat", "2025-01-02", "", "U1"]))) =
      serializeBlogRow (readBlogRow 0 "N" "D"
        ["1", "A", "x", "c", "u", "an", "ab", "av", "a,b , c", "im", "5 min", "true",
         "published", "cat", "2025-01-02", "", "U1"]) :=
  claim2_row_record_row_idempotent
    ["1", "A", "x", "c", "u", "an", "ab", "av", "a,b , c", "im", "5 min", "true",
     "published", "cat", "2025-01-02", "", "U1"] 0 "N" "D" "M" "E"
    (by decide) (by decide)

theorem jsValOrEmpty_str (s : String) : jsValOrEmpty (.str s) = .str s := by
  unfold jsValOrEmpty jsTruthy
  by_cases h : s = "" <;> simp [h]

theorem hasBlogChanged_of_title_ne (ex : BlogPost) (t' : String) (h : t' ≠ ex.title) :
    hasBlogChanged ex { ex with title := t' } = true := by
  unfold hasBlogChanged
  rw [List.any_eq_true]
  refine ⟨"title", by simp [fieldsToCompare], ?_⟩
  simp only [fieldChanged, blogField, jsValOrEmpty_str]
  simp [Ne.symm h]

/-- Claim C6: with one stored row and an update request differing from
the stored record only in the title, the service issues exactly one
row-range update for sheet row 2 and no append; in the written row the
updatedAt cell changes (the clock differs from the stored updatedAt)
while the createdAt cell and every cell other than title and updatedAt
equal the stored record's serialization. -/
theorem claim6_title_change_single_update (row : List String) (nowIso nowDate t' : String)
    (hdiff : t' ≠ (readBlogRow 0 nowIso nowDate row).title)
    (hclock : (readBlogRow 0 nowIso nowDate row).updatedAt ≠ nowIso) :
    writeBlogToSheet [row] nowIso nowDate
        [{ readBlogRow 0 nowIso nowDate row with title := t' }] =
      { updates := [(2, serializeBlogRow
          (freshUpdatedBlog { readBlogRow 0 nowIso nowDate row with title := t' } nowIso))],
        appendedRows := [], updated := 1, added := 0, success := true } ∧
    (serializeBlogRow
        (freshUpdatedBlog { readBlogRow 0 nowIso nowDate row with title := t' } nowIso)).getD 16 "" ≠
      (serializeBlogRow (readBlogRow 0 nowIso nowDate row)).getD 16 "" ∧
    (serializeBlogRow
        (freshUpdatedBlog { readBlogRow 0 nowIso nowDate row with title := t' } nowIso)).getD 15 "" =
      (serializeBlogRow (readBlogRow 0 nowIso nowDate row)).getD 15 "" ∧
    ∀ j < 17, j ≠ 1 → j ≠ 16 →
      (serializeBlogRow
          (freshUpdatedBlog { readBlogRow 0 nowIso nowDate row with title := t' } nowIso)).getD j "" =
        (serializeBlogRow (readBlogRow 0 nowIso nowDate row)).getD j "" := by
  have hlook : lookupExisting (existingEntries nowIso nowDate [row])
      (blogKey { readBlogRow 0 nowIso nowDate row with title := t' }) =
      some (readBlogRow 0 nowIso nowDate row, 2) := by
    simp [lookupExisting, existingEntries, readBlogFromSheet, List.enum, List.enumFrom, blogKey]
  have hhas := hasExisting_of_lookup _ _ _ hlook
  have hchanged := hasBlogChanged_of_title_ne (readBlogRow 0 nowIso nowDate row) t' hdiff
  refine ⟨?_, ?_, rfl, ?_⟩
  · simp [writeBlogToSheet, partitionBlogs, hhas, hlook, hchanged, freshUpdatedBlog]
  · simpa [serializeBlogRow] using Ne.symm hclock
  · intro j hj h1 h16
    interval_cases j <;> first | rfl | (exact absurd rfl h1) | (exact absurd rfl h16)

theorem claim6_title_change_single_update_witness :
    writeBlogToSheet
        [["1", "A", "x", "", "", "", "", "", "", "", "", "", "", "", "", "C0", "U0"]] "NOW" "D"
        [{ readBlogRow 0 "NOW" "D"
            ["1", "A", "x", "", "", "", "", "", "", "", "", "", "", "", "", "C0", "U0"]
            with title := "B" }] =
      { updates := [(2, serializeBlogRow
          (freshUpdatedBlog { readBlogRow 0 "NOW" "D"
              ["1", "A", "x", "", "", "", "", "", "", "", "", "", "", "", "", "C0", "U0"]
              with title := "B" } "NOW"))],
        appendedRows := [], updated := 1, added := 0, success := true } ∧
    (serializeBlogRow (freshUpdatedBlog { readBlogRow 0 "NOW" "D"
        ["1", "A", "x", "", "", "", "", "", "", "", "", "", "", "", "", "C0", "U0"]
        with title := "B" } "NOW")).getD 16 "" ≠
      (serializeBlogRow (readBlogRow 0 "NOW" "D"
        ["1", "A", "x", "", "", "", "", "", "", "", "", "", "", "", "", "C0", "U0"])).getD 16 "" ∧
    (serializeBlogRow (freshUpdatedBlog { readBlogRow 0 "NOW" "D"
        ["1", "A", "x", "", "", "", "", "", "", "", "", "", "", "", "", "C0", "U0"]
        with title := "B" } "NOW")).getD 15 "" =
      (serializeBlogRow (readBlogRow 0 "NOW" "D"
        ["1", "A", "x", "", "", "", "", "", "", "", "", "", "", "", "", "C0", "U0"])).getD 15 "" ∧
    ∀ j < 17, j ≠ 1 → j ≠ 16 →
      (serializeBlogRow (freshUpdatedBlog { readBlogRow 0 "NOW" "D"
          ["1", "A", "x", "", "", "", "", "", "", "", "", "", "", "", "", "C0", "U0"]
          with title := "B" } "NOW")).getD j "" =
        (serializeBlogRow (readBlogRow 0 "NOW" "D"
          ["1", "A", "x", "", "", "", "", "", "", "", "", "", "", "", "", "C0", "U0"])).getD j "" :=
  claim6_title_change_single_update
    ["1", "A", "x", "", "", "", "", "", "", "", "", "", "", "", "", "C0", "U0"]
    "NOW" "D" "B" (by decide) (by decide)

/-- Claim C8 as stated is false: an update event that delivers an empty
list resets the index to 0, but then the index equals the list length
(0), so the index does reach the list length after that step. -/
theorem claim8_counterexample :
    ¬ ((bannerStep
        { drives := [{ status := "upcoming", registrationOpen := true },
                     { status := "upcoming", registrationOpen := true },
                     { status := "upcoming", registrationOpen := true }], index := 0 }
        (.update [])).index <
      (bannerStep
        { drives := [{ status := "upcoming", registrationOpen := true },
                     { status := "upcoming", registrationOpen := true },
                     { status := "upcoming", registrationOpen := true }], index := 0 }
        (.update [])).drives.length) := by
  decide

/-- Claim C8, amended: with 3 cached drives every tick advances the
index by 1 modulo 3; an update event whose filtered list is no longer
than the current index resets the index to 0; and from any state where
the index is below the list length, or the list is empty and the index
is 0, every step keeps the index below the list length unless the new
list is empty, in which case the index is 0. -/
theorem claim8_rotation_amended :
    (∀ s : BannerState, s.drives.length = 3 →
      bannerStep s .tick = { s with index := (s.index + 1) % 3 }) ∧
    (∀ (s : BannerState) (data : List BannerDrive),
      (bannerFilter data).length ≤ s.index →
      bannerStep s (.update data) = { drives := bannerFilter data, index := 0 }) ∧
    (∀ (s : BannerState) (e : BannerEvent),
      (s.index < s.drives.length ∨ (s.drives = [] ∧ s.index = 0)) →
      ((bannerStep s e).index < (bannerStep s e).drives.length ∨
        ((bannerStep s e).drives = [] ∧ (bannerStep s e).index = 0))) := by
  refine ⟨?_, ?_, ?_⟩
  · intro s h3
    simp [bannerStep, h3]
  · intro s data hle
    simp [bannerStep, hle]
  · intro s e hinv
    cases e with
    | tick =>
      by_cases hlen : 1 < s.drives.length
      · left
        simp only [bannerStep, if_pos hlen]
        exact Nat.mod_lt _ (by omega)
      · simpa [bannerStep, hlen] using hinv
    | update data =>
      by_cases hle : (bannerFilter data).length ≤ s.index
      · cases hdata : bannerFilter data with
        | nil => right; simp [bannerStep, hdata]
        | cons d ds =>
          left
          simp only [bannerStep, hdata, List.length_cons] at hle ⊢
          split <;> omega
      · left
        simp only [bannerStep]
        rw [if_neg hle]
        omega

theorem claim8_rotation_amended_witness :
    bannerStep
        { drives := [{ status := "upcoming", registrationOpen := true },
                     { status := "upcoming", registrationOpen := true },
                     { status := "upcoming", registrationOpen := true }], index := 2 } .tick =
      { drives := [{ status := "upcoming", registrationOpen := true },
                   { status := "upcoming", registrationOpen := true },
                   { status := "upcoming", registrationOpen := true }], index := (2 + 1) % 3 } ∧
    bannerStep
        { drives := [{ status := "upcoming", registrationOpen := true },
                     { status := "upcoming", registrationOpen := true },
                     { status := "upcoming", registrationOpen := true }], index := 2 }
        (.update [{ status := "upcoming", registrationOpen := true }]) =
      { drives := [{ status := "upcoming", registrationOpen := true }], index := 0 } ∧
    ((bannerStep { drives := [{ status := "upcoming", registrationOpen := true },
        { status := "upcoming", registrationOpen := true }], index := 1 } .tick).index <
      (bannerStep { drives := [{ status := "upcoming", registrationOpen := true },
        { status := "upcoming", registrationOpen := true }], index := 1 } .tick).drives.length ∨
      ((bannerStep { drives := [{ status := "upcoming", registrationOpen := true },
          { status := "upcoming", registrationOpen := true }], index := 1 } .tick).drives = [] ∧
        (bannerStep { drives := [{ status := "upcoming", registrationOpen := true },
          { status := "upcoming", registrationOpen := true }], index := 1 } .tick).index = 0)) :=
  ⟨claim8_rotation_amended.1 _ (by decide),
   claim8_rotation_amended.2.1 _ [{ status := "upcoming", registrationOpen := true }] (by decide),
   claim8_rotation_amended.2.2 _ .tick (by decide)⟩

/-- Claim C7 as stated is false: a row whose id cell is present (the
nonzero-length string 0) does not keep that id; Number of the string 0
is 0, which is falsy, so the record id falls back to the row index plus
one. -/
theorem claim7_counterexample :
    (readBlogRow 0 "N" "D" ["0", "T"]).id = 1 ∧ (1 : Int) ≠ 0 := by
  constructor
  · decide
  · decide

/-- Claim C7, amended: a blog row with a missing or empty id cell gets
the 1-based data-row index; a blog row keeps its id exactly when the
cell parses to a nonzero number (so the string 0 and non-numeric cells
also fall back to the index). A drive row with an empty id cell gets the
Date.now timestamp, and a nonempty id cell is kept as its parseInt
value. -/
theorem claim7_id_defaulting_amended :
    (∀ (row : List String) (i : Nat) (nowIso nowDate : String),
      row.getD 0 "" = "" → (readBlogRow i nowIso nowDate row).id = (i : Int) + 1) ∧
    (∀ (row : List String) (i : Nat) (nowIso nowDate : String) (n : Int),
      jsCellNum row 0 = some n → n ≠ 0 → (readBlogRow i nowIso nowDate row).id = n) ∧
    (∀ (row : List String) (nowMs : Int),
      row.getD 0 "" = "" →
      getProp (buildDrive DRIVE_SHEET_HEADERS nowMs row) "id" = some (.num (some nowMs))) ∧
    (∀ (row : List String) (nowMs : Int),
      row.getD 0 "" ≠ "" →
      getProp (buildDrive DRIVE_SHEET_HEADERS nowMs row) "id" =
        some (.num (parseIntJs (row.getD 0 "")))) := by
  refine ⟨?_, ?_, ?_, ?_⟩
  · intro row i nowIso nowDate hcell
    have hnum : jsCellNum row 0 = none ∨ jsCellNum row 0 = some 0 := by
      unfold jsCellNum
      rw [List.getD_eq_getElem?_getD] at hcell
      rw [← List.get?_eq_getElem?] at hcell
      cases hget : row.get? 0 with
      | none => exact Or.inl rfl
      | some s =>
        right
        rw [hget] at hcell
        simp only [Option.getD_some] at hcell
        simp [hcell, jsNum]
    unfold readBlogRow
    rcases hnum with h | h <;> simp [h, idOrIndex]
  · intro row i nowIso nowDate n hnum hne
    unfold readBlogRow
    simp [hnum, idOrIndex, hne]
  · intro row nowMs hcell
    rw [List.getD_eq_getElem?_getD] at hcell
    simp [buildDrive, DRIVE_SHEET_HEADERS, List.enum, List.enumFrom, getProp,
      readDriveCell, hcell]
  · intro row nowMs hcell
    rw [List.getD_eq_getElem?_getD] at hcell
    simp [buildDrive, DRIVE_SHEET_HEADERS, List.enum, List.enumFrom, getProp,
      readDriveCell, hcell]

theorem claim7_id_defaulting_amended_witness :
    (readBlogRow 4 "N" "D" ["", "T"]).id = (4 : Int) + 1 ∧
    (readBlogRow 4 "N" "D" ["77", "T"]).id = 77 ∧
    getProp (buildDrive DRIVE_SHEET_HEADERS 123 ["", "T"]) "id" = some (.num (some 123)) ∧
    getProp (buildDrive DRIVE_SHEET_HEADERS 123 ["55x", "T"]) "id" =
      some (.num (parseIntJs "55x")) :=
  ⟨claim7_id_defaulting_amended.1 ["", "T"] 4 "N" "D" (by decide),
   claim7_id_defaulting_amended.2.1 ["77", "T"] 4 "N" "D" 77 (by decide) (by decide),
   claim7_id_defaulting_amended.2.2.1 ["", "T"] 123 (by decide),
   claim7_id_defaulting_amended.2.2.2 ["55x", "T"] 123 (by decide)⟩

/-! ### Helper lemmas for the id-assignment claim -/

theorem le_foldl_max (as : List Int) (a : Int) : a ≤ as.foldl max a := by
  induction as generalizing a with
  | nil => exact le_refl a
  | cons b bs ih => exact le_trans (le_max_left a b) (ih (max a b))

theorem mem_le_foldl_max (as : List Int) (x : Int) :
    ∀ a, x ∈ as → x ≤ as.foldl max a := by
  induction as with
  | nil =>
    intro a h
    simp at h
  | cons b bs ih =>
    intro a h
    rcases List.mem_cons.mp h with h | h
    · subst h
      exact le_trans (le_max_right a x) (le_foldl_max bs (max a x))
    · exact ih (max a b) h

theorem le_of_mem_maxInt (l : List Int) (x m : Int) (hx : x ∈ l) (hm : l.max? = some m) :
    x ≤ m := by
  cases l with
  | nil => simp at hx
  | cons a as =>
    have hm' : as.foldl max a = m := by
      simpa [List.max?] using hm
    rcases List.mem_cons.mp hx with h | h
    · subst h
      exact hm' ▸ le_foldl_max as x
    · exact hm' ▸ mem_le_foldl_max as x a h

theorem fst_mem_readBlog_of_mem_entries (rows : List (List String)) (nowIso nowDate : String)
    (e : BlogPost × Nat) (he : e ∈ existingEntries nowIso nowDate rows) :
    e.1 ∈ readBlogFromSheet nowIso nowDate rows := by
  unfold existingEntries at he
  rcases List.mem_map.mp he with ⟨pair, hp, hpe⟩
  have : e.1 = pair.2 := by rw [← hpe]
  rw [this]
  exact snd_mem_of_mem_enum hp

theorem nextBlogId_not_existing (rows : List (List String)) (nowIso nowDate : String) :
    hasExisting (existingEntries nowIso nowDate rows)
      (jsStringOfInt (nextBlogId (readBlogFromSheet nowIso nowDate rows))) = false := by
  rw [hasExisting, List.any_eq_false]
  intro e he
  simp only [decide_eq_true_eq]
  intro hkey
  have hmem := fst_mem_readBlog_of_mem_entries rows nowIso nowDate e he
  have hid : e.1.id = nextBlogId (readBlogFromSheet nowIso nowDate rows) :=
    jsStringOfInt_injective hkey
  unfold nextBlogId at hid
  cases hmax : ((readBlogFromSheet nowIso nowDate rows).map (fun b => b.id)).max? with
  | none =>
    rw [List.max?_eq_none_iff, List.map_eq_nil_iff] at hmax
    rw [hmax] at hmem
    simp at hmem
  | some m =>
    rw [hmax] at hid
    simp only [] at hid
    have hle : e.1.id ≤ m :=
      le_of_mem_maxInt _ _ m (List.mem_map_of_mem _ hmem) hmax
    omega

/-- The single-record new-blog upsert: the incoming id is kept, createdAt
is defaulted only when empty and updatedAt is refreshed. -/
theorem writeBlog_new_single (rows : List (List String)) (nowIso nowDate : String)
    (b : BlogPost) (h : hasExisting (existingEntries nowIso nowDate rows) (blogKey b) = false) :
    writeBlogToSheet rows nowIso nowDate [b] =
      { updates := [], appendedRows := [serializeBlogRow (freshNewBlog b nowIso)],
        updated := 0, added := 1, success := true } := by
  simp [writeBlogToSheet, partitionBlogs, h]

/-- The single-record changed-blog upsert: only updatedAt is refreshed. -/
theorem writeBlog_changed_single (rows : List (List String)) (nowIso nowDate : String)
    (b ex : BlogPost) (ri : Nat)
    (hlook : lookupExisting (existingEntries nowIso nowDate rows) (blogKey b) = some (ex, ri))
    (hch : hasBlogChanged ex b = true) :
    writeBlogToSheet rows nowIso nowDate [b] =
      { updates := [(ri, serializeBlogRow (freshUpdatedBlog b nowIso))], appendedRows := [],
        updated := 1, added := 0, success := true } := by
  have hhas := hasExisting_of_lookup _ _ _ hlook
  simp [writeBlogToSheet, partitionBlogs, hhas, hlook, hch]

theorem orDefault_self (s : String) : orDefault s s = s := by
  unfold orDefault
  by_cases h : s = "" <;> simp [h]

/-- Claim C3 as stated is false: in the upsert, a new record keeps its
incoming id and its incoming creation timestamp. With one stored row of
id 1 the claimed assignment is max existing plus one, that is 2, and a
fresh createdAt NOW; the code appends the incoming id 42 and the stale
createdAt instead. -/
theorem claim3_counterexample :
    hasExisting (existingEntries "NOW" "D" [["1", "A"]]) (blogKey staleIncomingBlog) = false ∧
    nextBlogId (readBlogFromSheet "NOW" "D" [["1", "A"]]) = 2 ∧
    ((writeBlogToSheet [["1", "A"]] "NOW" "D"
        [staleIncomingBlog]).appendedRows.getD 0 []).getD 0 "" = "42" ∧
    "42" ≠ jsStringOfInt 2 ∧
    ((writeBlogToSheet [["1", "A"]] "NOW" "D"
        [staleIncomingBlog]).appendedRows.getD 0 []).getD 15 "" = "2020-01-01" ∧
    "2020-01-01" ≠ "NOW" := by
  refine ⟨by decide, by decide, by decide, by decide, by decide, by decide⟩

/-- Claim C3, amended: writeBlogToSheet appends a new record with its
incoming id unchanged, createdAt defaulted to the clock only when the
incoming createdAt is empty and a fresh updatedAt, and rewrites a
changed record with only updatedAt refreshed; the max-plus-one id with
fully fresh timestamps is assigned by addSingleBlog before it delegates
(and that id is never already present), while addDrive assigns the
Date.now timestamp id only when the input id is falsy, with fresh
timestamps either way. -/
theorem claim3_id_and_timestamps_amended :
    (∀ (rows : List (List String)) (nowIso nowDate : String) (b : BlogPost),
      hasExisting (existingEntries nowIso nowDate rows) (blogKey b) = false →
      writeBlogToSheet rows nowIso nowDate [b] =
        { updates := [], appendedRows := [serializeBlogRow (freshNewBlog b nowIso)],
          updated := 0, added := 1, success := true } ∧
      (freshNewBlog b nowIso).id = b.id ∧
      (freshNewBlog b nowIso).createdAt = orDefault b.createdAt nowIso ∧
      (freshNewBlog b nowIso).updatedAt = nowIso) ∧
    (∀ (rows : List (List String)) (nowIso nowDate : String) (b ex : BlogPost) (ri : Nat),
      lookupExisting (existingEntries nowIso nowDate rows) (blogKey b) = some (ex, ri) →
      hasBlogChanged ex b = true →
      writeBlogToSheet rows nowIso nowDate [b] =
        { updates := [(ri, serializeBlogRow (freshUpdatedBlog b nowIso))], appendedRows := [],
          updated := 1, added := 0, success := true } ∧
      (freshUpdatedBlog b nowIso).id = b.id ∧
      (freshUpdatedBlog b nowIso).createdAt = b.createdAt ∧
      (freshUpdatedBlog b nowIso).updatedAt = nowIso) ∧
    (∀ (rows : List (List String)) (nowIso nowDate : String) (input : BlogInput),
      (readBlogFromSheet nowIso nowDate rows).find?
          (fun x => decide (jsToLower x.title = jsToLower input.title)) = none →
      addSingleBlog rows nowIso nowDate input =
        ({ success := true,
           assignedId := some (nextBlogId (readBlogFromSheet nowIso nowDate rows)),
           message := none },
         some { updates := [],
                appendedRows := [serializeBlogRow (freshNewBlog
                  (buildNewBlog input (nextBlogId (readBlogFromSheet nowIso nowDate rows))
                    nowIso) nowIso)],
                updated := 0, added := 1, success := true }) ∧
      (buildNewBlog input (nextBlogId (readBlogFromSheet nowIso nowDate rows))
          nowIso).createdAt = nowIso ∧
      (freshNewBlog (buildNewBlog input (nextBlogId (readBlogFromSheet nowIso nowDate rows))
          nowIso) nowIso).createdAt = nowIso) ∧
    (∀ (nowMs : Int) (nowIso : String) (dd : JsObj),
      validateDriveSheetData dd = true →
      jsTruthyD (getProp dd "id") = false →
      ∃ o r, addDrive nowMs nowIso dd = .ok (o, r) ∧
        getProp o "id" = some (.str (jsStringOfInt nowMs)) ∧
        getProp o "createdAt" = some (.str nowIso) ∧
        getProp o "updatedAt" = some (.str nowIso)) := by
  refine ⟨?_, ?_, ?_, ?_⟩
  · intro rows nowIso nowDate b h
    exact ⟨writeBlog_new_single rows nowIso nowDate b h, rfl, rfl, rfl⟩
  · intro rows nowIso nowDate b ex ri hlook hch
    exact ⟨writeBlog_changed_single rows nowIso nowDate b ex ri hlook hch, rfl, rfl, rfl⟩
  · intro rows nowIso nowDate input hfind
    have hfresh := nextBlogId_not_existing rows nowIso nowDate
    have hwrite := writeBlog_new_single rows nowIso nowDate
      (buildNewBlog input (nextBlogId (readBlogFromSheet nowIso nowDate rows)) nowIso) hfresh
    refine ⟨?_, rfl, orDefault_self nowIso⟩
    simp only [addSingleBlog, hfind, hwrite]
  · intro nowMs nowIso dd hval hid
    simp only [addDrive, if_pos hval, hid, Bool.false_eq_true, if_false]
    refine ⟨_, _, rfl, ?_, ?_, ?_⟩ <;>
      simp [getProp, List.find?_append]

theorem claim3_id_and_timestamps_amended_witness :
    (writeBlogToSheet [["1", "A"]] "NOW" "D" [staleIncomingBlog] =
      { updates := [],
        appendedRows := [serializeBlogRow (freshNewBlog staleIncomingBlog "NOW")],
        updated := 0, added := 1, success := true } ∧
      (freshNewBlog staleIncomingBlog "NOW").id = staleIncomingBlog.id ∧
      (freshNewBlog staleIncomingBlog "NOW").createdAt =
        orDefault staleIncomingBlog.createdAt "NOW" ∧
      (freshNewBlog staleIncomingBlog "NOW").updatedAt = "NOW") ∧
    (writeBlogToSheet [["1", "A"]] "NOW" "D"
        [{ readBlogRow 0 "NOW" "D" ["1", "A"] with title := "B" }] =
      { updates := [(2, serializeBlogRow
          (freshUpdatedBlog { readBlogRow 0 "NOW" "D" ["1", "A"] with title := "B" } "NOW"))],
        appendedRows := [], updated := 1, added := 0, success := true } ∧
      (freshUpdatedBlog { readBlogRow 0 "NOW" "D" ["1", "A"] with title := "B" } "NOW").id =
        ({ readBlogRow 0 "NOW" "D" ["1", "A"] with title := "B" } : BlogPost).id ∧
      (freshUpdatedBlog { readBlogRow 0 "NOW" "D" ["1", "A"] with title := "B" } "NOW").createdAt =
        ({ readBlogRow 0 "NOW" "D" ["1", "A"] with title := "B" } : BlogPost).createdAt ∧
      (freshUpdatedBlog { readBlogRow 0 "NOW" "D" ["1", "A"] with title := "B" } "NOW").updatedAt =
        "NOW") ∧
    (addSingleBlog [["1", "A"]] "NOW" "D" freshTitleInput =
      ({ success := true,
         assignedId := some (nextBlogId (readBlogFromSheet "NOW" "D" [["1", "A"]])),
         message := none },
       some { updates := [],
              appendedRows := [serializeBlogRow (freshNewBlog
                (buildNewBlog freshTitleInput
                  (nextBlogId (readBlogFromSheet "NOW" "D" [["1", "A"]])) "NOW") "NOW")],
              updated := 0, added := 1, success := true }) ∧
      (buildNewBlog freshTitleInput
          (nextBlogId (readBlogFromSheet "NOW" "D" [["1", "A"]])) "NOW").createdAt = "NOW" ∧
      (freshNewBlog (buildNewBlog freshTitleInput
          (nextBlogId (readBlogFromSheet "NOW" "D" [["1", "A"]])) "NOW") "NOW").createdAt =
        "NOW") ∧
    (∃ o r, addDrive 777 "NOW" minimalDriveInput = .ok (o, r) ∧
      getProp o "id" = some (.str (jsStringOfInt 777)) ∧
      getProp o "createdAt" = some (.str "NOW") ∧
      getProp o "updatedAt" = some (.str "NOW")) :=
  ⟨claim3_id_and_timestamps_amended.1 [["1", "A"]] "NOW" "D" staleIncomingBlog (by decide),
   claim3_id_and_timestamps_amended.2.1 [["1", "A"]] "NOW" "D"
     { readBlogRow 0 "NOW" "D" ["1", "A"] with title := "B" }
     (readBlogRow 0 "NOW" "D" ["1", "A"]) 2 (by decide) (by decide),
   claim3_id_and_timestamps_amended.2.2.1 [["1", "A"]] "NOW" "D" freshTitleInput (by decide),
   claim3_id_and_timestamps_amended.2.2.2 777 "NOW" minimalDriveInput (by decide) (by decide)⟩

theorem getProp_append (a b : JsObj) (k : String) :
    getProp (a ++ b) k =
      match getProp b k with
      | some v => some v
      | none => getProp a k := by
  unfold getProp
  rw [List.reverse_append, List.find?_append]
  cases hb : b.reverse.find? (fun e => decide (e.1 = k)) with
  | none => simp [hb]
  | some e => simp [hb]

/-- Claim C10 as stated is false: updateDrive first validates the patch
merged with the id, and the presence check on the required fields throws
for a patch that does not name them, so not every patch yields a row
write. The empty patch on a sheet holding drive id 1 errors instead of
writing a row. -/
theorem claim10_counterexample :
    updateDrive sampleDriveRows 1000 "NOW" "1" [] = .error "Validation failed" := by
  decide

/-- Claim C10, amended: for every stored drive found by id and every
patch that passes the required-field validation (modelled from the spec,
the validator's file not being under src), updateDrive writes one row in
which every field named in the patch takes the patch value, updatedAt is
refreshed to the clock, and every other field keeps the stored drive's
value; the returned object is exactly the object whose serialization is
written. -/
theorem claim10_update_drive_amended (rows : List (List String)) (nowMs : Int)
    (nowIso id : String) (p : JsObj) (i : Nat)
    (hval : validateDriveSheetData (p ++ ([("id", .str id)] : JsObj)) = true)
    (hfind : (getAllDrives rows nowMs).findIdx? (fun d => driveIdMatches d id) = some i) :
    updateDrive rows nowMs nowIso id p =
      .ok (i + 2,
        serializeDriveRow (((getAllDrives rows nowMs).getD i []) ++ p ++
          ([("updatedAt", .str nowIso)] : JsObj)),
        ((getAllDrives rows nowMs).getD i []) ++ p ++
          ([("updatedAt", .str nowIso)] : JsObj)) ∧
    getProp (((getAllDrives rows nowMs).getD i []) ++ p ++
      ([("updatedAt", .str nowIso)] : JsObj)) "updatedAt" = some (.str nowIso) ∧
    (∀ h v, h ≠ "updatedAt" → getProp p h = some v →
      getProp (((getAllDrives rows nowMs).getD i []) ++ p ++
        ([("updatedAt", .str nowIso)] : JsObj)) h = some v) ∧
    (∀ h, h ≠ "updatedAt" → getProp p h = none →
      getProp (((getAllDrives rows nowMs).getD i []) ++ p ++
        ([("updatedAt", .str nowIso)] : JsObj)) h =
        getProp ((getAllDrives rows nowMs).getD i []) h) := by
  have hsingle : ∀ h, h ≠ "updatedAt" →
      getProp ([("updatedAt", .str nowIso)] : JsObj) h = none := by
    intro h hne
    simp [getProp, List.find?, Ne.symm hne]
  refine ⟨?_, ?_, ?_, ?_⟩
  · simp only [updateDrive, if_pos hval, hfind]
  · rw [getProp_append]
    simp [getProp, List.find?]
  · intro h v hne hp
    rw [getProp_append, hsingle h hne, getProp_append, hp]
  · intro h hne hp
    rw [getProp_append, hsingle h hne, getProp_append, hp]

theorem claim10_update_drive_amended_witness :
    (updateDrive sampleDriveRows 1000 "NOW" "1" sampleDrivePatch =
      .ok (0 + 2,
        serializeDriveRow (((getAllDrives sampleDriveRows 1000).getD 0 []) ++
          sampleDrivePatch ++ ([("updatedAt", .str "NOW")] : JsObj)),
        ((getAllDrives sampleDriveRows 1000).getD 0 []) ++ sampleDrivePatch ++
          ([("updatedAt", .str "NOW")] : JsObj)) ∧
    getProp (((getAllDrives sampleDriveRows 1000).getD 0 []) ++ sampleDrivePatch ++
      ([("updatedAt", .str "NOW")] : JsObj)) "updatedAt" = some (.str "NOW") ∧
    (∀ h v, h ≠ "updatedAt" → getProp sampleDrivePatch h = some v →
      getProp (((getAllDrives sampleDriveRows 1000).getD 0 []) ++ sampleDrivePatch ++
        ([("updatedAt", .str "NOW")] : JsObj)) h = some v) ∧
    (∀ h, h ≠ "updatedAt" → getProp sampleDrivePatch h = none →
      getProp (((getAllDrives sampleDriveRows 1000).getD 0 []) ++ sampleDrivePatch ++
        ([("updatedAt", .str "NOW")] : JsObj)) h =
        getProp ((getAllDrives sampleDriveRows 1000).getD 0 []) h)) :=
  claim10_update_drive_amended sampleDriveRows 1000 "NOW" "1" sampleDrivePatch 0
    (by decide) (by decide)

end SaveEarthRide

